import Mathlib

/-!
Shallow embedding of `apps/ELFLoader/elf_loader.cc` (coralmicro ELF loader).

Bytes are modelled as `Nat` values (reads reduce them mod 256); device
memory as a total function `Nat → Nat` from addresses to bytes; machine
integers as `Nat` with explicit `% 2^w` where overflow matters.

The embedding has two layers, both read directly off the source:
* the pure ELF validate-and-load pass of `elfloader_main`
  (`elfloader_load`, `elfloader_main_actions`);
* a transition system for the USB receive callback `elfloader_recv`,
  the FreeRTOS one-shot timer `usb_timer` and its callback
  `usb_timer_callback`, interleaved as atomic events (`sysStep`).
-/

namespace ELFLoader

/-- Constant `PT_LOAD` segment type from `<elf.h>`. -/
def PT_LOAD : Nat := 1

/-- Constant `EF_ARM_EABI_VER5 = 0x05000000` from `<elf.h>`. -/
def EF_ARM_EABI_VER5 : Nat := 0x05000000

/-- Macro `EF_ARM_EABI_VERSION(flags) = flags & EF_ARM_EABI_VERMASK` with
`EF_ARM_EABI_VERMASK = 0xFF000000`: keep the top byte of a 32-bit word. -/
def EF_ARM_EABI_VERSION (flags : Nat) : Nat :=
  flags % 2 ^ 32 / 2 ^ 24 * 2 ^ 24

/-- Read one byte of the image buffer (out-of-range reads give 0). -/
def byteAt (buf : List Nat) (i : Nat) : Nat :=
  buf.getD i 0 % 256

/-- Little-endian 16-bit read, as the C struct field access does on the
target (little-endian ARM). -/
def read16 (buf : List Nat) (i : Nat) : Nat :=
  byteAt buf i + 2 ^ 8 * byteAt buf (i + 1)

/-- Little-endian 32-bit read. -/
def read32 (buf : List Nat) (i : Nat) : Nat :=
  byteAt buf i + 2 ^ 8 * byteAt buf (i + 1) + 2 ^ 16 * byteAt buf (i + 2) +
    2 ^ 24 * byteAt buf (i + 3)

/-- Value of `sizeof(Elf32_Phdr)` on the 32-bit target. -/
def phdrSize : Nat := 32

/-- The fields of `Elf32_Phdr` used by the loader. -/
structure Phdr where
  p_type : Nat
  p_offset : Nat
  p_paddr : Nat
  p_filesz : Nat
  deriving Repr, DecidableEq

/-- The `Elf32_Ehdr` fields used by the loader, at their ELF32 byte offsets:
`e_entry` at 24, `e_phoff` at 28, `e_flags` at 36, `e_phentsize` at 42,
`e_phnum` at 44. -/
def e_entry (buf : List Nat) : Nat := read32 buf 24

def e_phoff (buf : List Nat) : Nat := read32 buf 28

def e_flags (buf : List Nat) : Nat := read32 buf 36

def e_phentsize (buf : List Nat) : Nat := read16 buf 42

def e_phnum (buf : List Nat) : Nat := read16 buf 44

/-- Program header number `i`, read at `e_phoff + sizeof(Elf32_Phdr) * i`,
mirroring `reinterpret_cast<Elf32_Phdr*>(elf + e_phoff + 32 * i)`.
Field offsets inside `Elf32_Phdr`: `p_type` 0, `p_offset` 4, `p_paddr` 12,
`p_filesz` 16. -/
def phdrAt (buf : List Nat) (i : Nat) : Phdr :=
  let base := e_phoff buf + phdrSize * i
  { p_type := read32 buf base
    p_offset := read32 buf (base + 4)
    p_paddr := read32 buf (base + 12)
    p_filesz := read32 buf (base + 16) }

/-- Semantics of `memcpy(dst, buf + src, n)`: device memory after copying `n` bytes
whose source is `buf` starting at index `src` to addresses
`dst, …, dst + n - 1`. -/
def memcpyFromBuf (buf : List Nat) (dst src n : Nat) (mem : Nat → Nat) :
    Nat → Nat :=
  fun a => if dst ≤ a ∧ a < dst + n then byteAt buf (src + (a - dst)) else mem a

/-- One iteration of the loader's program-header loop: skip a non-`PT_LOAD`
entry, skip a `PT_LOAD` entry with `p_filesz == 0`, otherwise
`memcpy(p_paddr, elf + p_offset, p_filesz)`. -/
def loadSegmentStep (buf : List Nat) (mem : Nat → Nat) (i : Nat) :
    Nat → Nat :=
  let ph := phdrAt buf i
  if ph.p_type ≠ PT_LOAD then mem
  else if ph.p_filesz = 0 then mem
  else memcpyFromBuf buf ph.p_paddr ph.p_offset ph.p_filesz mem

/-- The loader's loop `for (i = 0; i < e_phnum; ++i)` over `n` entries. -/
def loadSegments (buf : List Nat) (mem : Nat → Nat) (n : Nat) : Nat → Nat :=
  (List.range n).foldl (loadSegmentStep buf) mem

/-- The two format checks of `elfloader_main`, modelled as recoverable
errors (the source expresses them as `assert`s that stop the device
before any copy). -/
inductive FormatError where
  | UnsupportedAbi
  | HeaderSizeMismatch
  deriving Repr, DecidableEq

/-- The validate-and-load pass of `elfloader_main` over an in-memory image:
first `assert(EF_ARM_EABI_VERSION(e_flags) == EF_ARM_EABI_VER5)`, then
`assert(e_phentsize == sizeof(Elf32_Phdr))`, then the segment-copy loop;
returns the entry point and the device memory after the pass (unchanged
when a check fails, since both checks precede the loop). -/
def elfloader_load (buf : List Nat) (mem : Nat → Nat) :
    Except FormatError Nat × (Nat → Nat) :=
  if EF_ARM_EABI_VERSION (e_flags buf) ≠ EF_ARM_EABI_VER5 then
    (.error .UnsupportedAbi, mem)
  else if e_phentsize buf ≠ phdrSize then
    (.error .HeaderSizeMismatch, mem)
  else
    (.ok (e_entry buf), loadSegments buf mem (e_phnum buf))

/-- Does program header `i` of `buf` write address `a`: it is a `PT_LOAD`
entry with nonzero `p_filesz` whose destination range contains `a`. -/
def coversIdx (buf : List Nat) (i a : Nat) : Prop :=
  (phdrAt buf i).p_type = PT_LOAD ∧ (phdrAt buf i).p_filesz ≠ 0 ∧
    (phdrAt buf i).p_paddr ≤ a ∧ a < (phdrAt buf i).p_paddr + (phdrAt buf i).p_filesz

instance (buf : List Nat) (i a : Nat) : Decidable (coversIdx buf i a) := by
  unfold coversIdx; infer_instance

/-- The observable steps of `elfloader_main`, in program order: an
`assert` failure stopping the device, one `memcpy` per loaded segment,
the parameterless branch `entry_point_fn()` into the entry point, and the
final `vTaskSuspend(NULL)` parking the task. -/
inductive MainAction where
  | abort (e : FormatError)
  | copy (dst src n : Nat)
  | callEntry (addr : Nat)
  | suspendSelf
  deriving Repr, DecidableEq

/-- The `memcpy` steps emitted by the program-header loop of
`elfloader_main`, one per `PT_LOAD` entry with nonzero `p_filesz`, in
loop order. -/
def segCopyActions (buf : List Nat) : List MainAction :=
  (List.range (e_phnum buf)).filterMap fun i =>
    let ph := phdrAt buf i
    if ph.p_type ≠ PT_LOAD then none
    else if ph.p_filesz = 0 then none
    else some (.copy ph.p_paddr ph.p_offset ph.p_filesz)

/-- Control trace of `elfloader_main` on an image already in memory:
the ABI `assert`, then the `e_phentsize` `assert`, then the segment
copies, then `entry_point_fn()` (a parameterless call to `e_entry`),
then `vTaskSuspend(NULL)`. Nothing in the program ever resumes the
suspended task (no `vTaskResume` exists in the source). -/
def elfloader_main_actions (buf : List Nat) : List MainAction :=
  if EF_ARM_EABI_VERSION (e_flags buf) ≠ EF_ARM_EABI_VER5 then
    [.abort .UnsupportedAbi]
  else if e_phentsize buf ≠ phdrSize then
    [.abort .HeaderSizeMismatch]
  else
    segCopyActions buf ++ [.callEntry (e_entry buf), .suspendSelf]

/-- Fixed filesystem path of the fallback image in `elfloader_main`. -/
def defaultElfPath : String := "/default.elf"

/-- Image selection at the top of `elfloader_main`: a null `param` means
read `"/default.elf"` via the filesystem collaborator, a non-null `param`
is the pointer to the host-uploaded buffer (`heap` resolves it). -/
def elfloader_getImage (param : Nat) (fs : String → Option (List Nat))
    (heap : Nat → List Nat) : Option (List Nat) :=
  if param = 0 then fs defaultElfPath else some (heap param)

/-! ## The receive callback and the fallback timer as a transition system

`elfloader_recv` runs in the USB receive path; `usb_timer_callback` runs
in the timer-daemon context.  `main` arms `usb_timer` once at boot:
`xTimerCreate("usb_timer", pdMS_TO_TICKS(500), pdFALSE, usb_task,
usb_timer_callback)` followed by `xTimerStart`.  The two contexts are
interleaved as atomic events on a shared state. -/

/-- Timer period from `pdMS_TO_TICKS(500)` in `main`. -/
def usbTimerPeriodMs : Nat := 500

/-- Flag `uxAutoReload = pdFALSE` in `xTimerCreate`: the timer is single-shot. -/
def usbTimerAutoReload : Bool := false

/-- The three host commands of the upload protocol, already framed
(opcode 0 `SetSize{size}`, opcode 1 `Bytes{offset,size,payload}`,
opcode 2 `Done`). -/
inductive Cmd where
  | setSize (size : Nat)
  | bytes (offset size : Nat) (payload : List Nat)
  | done
  deriving Repr, DecidableEq

/-- Shared state of the loader firmware.  `recvImage` is the static
pointer `elfloader_recv_image` (0 is `nullptr`, its initial value);
`mem` is raw device memory; `allocs` records each `malloc` request size;
`timerLoads` and `doneLoads` record the `xTaskCreate(elfloader_main, …)`
calls made by the timer callback and by `Done`, with the `param` each
passed; `usbTaskSuspended` records the `vTaskSuspend` of the USB task
done by the timer callback. -/
structure SysState where
  timerActive : Bool
  recvImage : Nat
  mem : Nat → Nat
  allocs : List Nat
  timerLoads : Nat
  doneLoads : List Nat
  usbTaskSuspended : Bool

/-- State at the end of `main`: timer armed, `elfloader_recv_image`
still `nullptr`, nothing loaded. -/
def initState (mem0 : Nat → Nat) : SysState :=
  { timerActive := true, recvImage := 0, mem := mem0, allocs := [],
    timerLoads := 0, doneLoads := [], usbTaskSuspended := false }

/-- The receive callback `elfloader_recv`, one packet: `SetSize` does `xTimerStop` and
`elfloader_recv_image = malloc(size)` (`alloc` is the `malloc` oracle,
returning 0 on failure; the result is stored unchecked); `Bytes` does
`memcpy(elfloader_recv_image + offset, payload, size)` with no bounds
check; `Done` does `xTaskCreate(elfloader_main, …, elfloader_recv_image,
…)`.  No command reports an error and none is rejected. -/
def elfloader_recv (alloc : Nat → Nat) (s : SysState) : Cmd → SysState
  | .setSize size =>
      { s with timerActive := false, recvImage := alloc size,
               allocs := s.allocs ++ [size] }
  | .bytes offset size payload =>
      { s with mem := memcpyFromBuf payload (s.recvImage + offset) 0 size s.mem }
  | .done =>
      { s with doneLoads := s.doneLoads ++ [s.recvImage] }

/-- The timer callback `usb_timer_callback`: when the one-shot timer is still active its
expiry suspends the USB task (`vTaskSuspend(pvTimerGetTimerID(timer))`)
and does `xTaskCreate(elfloader_main, …, nullptr, …)`; once stopped or
already expired it never fires again. -/
def usb_timer_callback (s : SysState) : SysState :=
  if s.timerActive then
    { s with timerActive := false, usbTaskSuspended := true,
             timerLoads := s.timerLoads + 1 }
  else s

/-- An interleaving event: a timer expiry or one received packet. -/
inductive Event where
  | timerFire
  | recv (c : Cmd)
  deriving Repr, DecidableEq

/-- One atomic step of the interleaved system. -/
def sysStep (alloc : Nat → Nat) (s : SysState) : Event → SysState
  | .timerFire => usb_timer_callback s
  | .recv c => elfloader_recv alloc s c

/-- Run a trace of interleaved events. -/
def sysRun (alloc : Nat → Nat) (s : SysState) (tr : List Event) : SysState :=
  tr.foldl (sysStep alloc) s

/-- A concrete well-formed test image: entry point `0x1234`, program
header table at 52, two entries — a `PT_LOAD` entry copying 4 bytes
(`11, 22, 33, 44`, stored at file offset 116) to address 1000, and a
non-loadable entry of type 2. -/
def testElf : List Nat :=
  [0, 0, 0, 0, 0, 0, 0, 0, 0, 0, 0, 0, 0, 0, 0, 0, 0, 0, 0, 0, 0, 0, 0, 0,
   52, 18, 0, 0, 52, 0, 0, 0, 0, 0, 0, 0, 0, 0, 0, 5, 0, 0, 32, 0, 2, 0, 0, 0,
   0, 0, 0, 0, 1, 0, 0, 0, 116, 0, 0, 0, 0, 0, 0, 0, 232, 3, 0, 0, 4, 0, 0, 0,
   0, 0, 0, 0, 0, 0, 0, 0, 0, 0, 0, 0, 2, 0, 0, 0, 0, 0, 0, 0, 0, 0, 0, 0,
   0, 0, 0, 0, 0, 0, 0, 0, 0, 0, 0, 0, 0, 0, 0, 0, 0, 0, 0, 0, 11, 22, 33, 44]

/-! ## Lemmas about the segment-copy loop -/

theorem loadSegmentStep_eq (buf : List Nat) (mem : Nat → Nat) (i a : Nat) :
    loadSegmentStep buf mem i a =
      if coversIdx buf i a then
        byteAt buf ((phdrAt buf i).p_offset + (a - (phdrAt buf i).p_paddr))
      else mem a := by
  unfold loadSegmentStep memcpyFromBuf coversIdx
  by_cases h1 : (phdrAt buf i).p_type = PT_LOAD <;>
    by_cases h2 : (phdrAt buf i).p_filesz = 0 <;>
    by_cases h3 : (phdrAt buf i).p_paddr ≤ a ∧
      a < (phdrAt buf i).p_paddr + (phdrAt buf i).p_filesz <;>
    simp [h1, h2, h3]

theorem loadSegments_succ (buf : List Nat) (mem : Nat → Nat) (n : Nat) :
    loadSegments buf mem (n + 1) =
      loadSegmentStep buf (loadSegments buf mem n) n := by
  unfold loadSegments
  rw [List.range_succ, List.foldl_append]
  rfl

/-- Addresses covered by no program header among `0..n` are untouched. -/
theorem loadSegments_frame (buf : List Nat) (mem : Nat → Nat) (n a : Nat)
    (h : ∀ i, i < n → ¬ coversIdx buf i a) :
    loadSegments buf mem n a = mem a := by
  induction n with
  | zero => rfl
  | succ n ih =>
      rw [loadSegments_succ, loadSegmentStep_eq,
        if_neg (h n (Nat.lt_succ_self n))]
      exact ih fun i hi => h i (Nat.lt_succ_of_lt hi)

/-- An address covered by program header `i` and by no later header holds
the source byte of header `i` after the loop. -/
theorem loadSegments_appear (buf : List Nat) (mem : Nat → Nat) (n i a : Nat)
    (hin : i < n) (hc : coversIdx buf i a)
    (hafter : ∀ j, i < j → j < n → ¬ coversIdx buf j a) :
    loadSegments buf mem n a =
      byteAt buf ((phdrAt buf i).p_offset + (a - (phdrAt buf i).p_paddr)) := by
  induction n with
  | zero => omega
  | succ n ih =>
      rw [loadSegments_succ, loadSegmentStep_eq]
      by_cases hni : i = n
      · subst hni
        rw [if_pos hc]
      · have hi' : i < n := by omega
        rw [if_neg (hafter n hi' (Nat.lt_succ_self n))]
        exact ih hi' fun j hj1 hj2 => hafter j hj1 (Nat.lt_succ_of_lt hj2)

/-- Unfolding `elfloader_load` on success: both checks passed, the entry
point is `e_entry`, and memory is the result of the segment loop. -/
theorem elfloader_load_ok (buf : List Nat) (mem mem' : Nat → Nat) (entry : Nat)
    (hok : elfloader_load buf mem = (Except.ok entry, mem')) :
    EF_ARM_EABI_VERSION (e_flags buf) = EF_ARM_EABI_VER5 ∧
      e_phentsize buf = phdrSize ∧ entry = e_entry buf ∧
      mem' = loadSegments buf mem (e_phnum buf) := by
  unfold elfloader_load at hok
  split_ifs at hok with h1 h2
  · simp at hok
  · simp at hok
  · simp only [Prod.mk.injEq, Except.ok.injEq] at hok
    exact ⟨by simpa using h1, by simpa using h2, hok.1.symm, hok.2.symm⟩

/-! ## Claim theorems -/

/-- C2: for every image accepted by the loader (ABI and header-size
checks passed, so `elfloader_load` returns `ok`) whose loadable
destination ranges are pairwise disjoint, the loader copies, for each
program-header entry of type `PT_LOAD` with nonzero file size, exactly
`p_filesz` bytes from buffer offset `p_offset` to address `p_paddr`
verbatim, and writes no address outside the union of those destination
ranges (entries of other types and zero-sized `PT_LOAD` entries are
skipped; no zero-fill happens anywhere). -/
theorem c2_segment_copy_correct (buf : List Nat) (mem mem' : Nat → Nat)
    (entry : Nat)
    (hok : elfloader_load buf mem = (Except.ok entry, mem'))
    (hdisj : ∀ i j a, i < e_phnum buf → j < e_phnum buf → i ≠ j →
      coversIdx buf i a → ¬ coversIdx buf j a) :
    (∀ i, i < e_phnum buf → (phdrAt buf i).p_type = PT_LOAD →
      (phdrAt buf i).p_filesz ≠ 0 → ∀ k, k < (phdrAt buf i).p_filesz →
        mem' ((phdrAt buf i).p_paddr + k) =
          byteAt buf ((phdrAt buf i).p_offset + k)) ∧
    (∀ a, (∀ i, i < e_phnum buf → ¬ coversIdx buf i a) → mem' a = mem a) := by
  obtain ⟨-, -, -, hmem⟩ := elfloader_load_ok buf mem mem' entry hok
  subst hmem
  constructor
  · intro i hi hty hsz k hk
    have hc : coversIdx buf i ((phdrAt buf i).p_paddr + k) :=
      ⟨hty, hsz, Nat.le_add_right _ _, by omega⟩
    have h := loadSegments_appear buf mem (e_phnum buf) i
      ((phdrAt buf i).p_paddr + k) hi hc
      (fun j hj1 hj2 => hdisj i j _ hi hj2 (by omega) hc)
    rwa [Nat.add_sub_cancel_left] at h
  · intro a ha
    exact loadSegments_frame buf mem (e_phnum buf) a ha

/-- Witness for C2 on `testElf`: the 4 payload bytes land verbatim at
addresses 1000–1003 and the neighbouring addresses keep their old
value. -/
theorem c2_segment_copy_correct_witness :
    (elfloader_load testElf (fun _ => 0)).2 1000 = 11 ∧
    (elfloader_load testElf (fun _ => 0)).2 1003 = 44 ∧
    (elfloader_load testElf (fun _ => 0)).2 999 = 0 ∧
    (elfloader_load testElf (fun _ => 0)).2 1004 = 0 := by
  have hty1 : (phdrAt testElf 1).p_type ≠ PT_LOAD := by decide
  have hn2 : e_phnum testElf = 2 := by decide
  have hok : elfloader_load testElf (fun _ => 0) =
      (Except.ok 4660, (elfloader_load testElf (fun _ => 0)).2) := rfl
  have h := c2_segment_copy_correct testElf (fun _ => 0)
    ((elfloader_load testElf (fun _ => 0)).2) 4660 hok ?_
  · have e0 : (phdrAt testElf 0).p_paddr = 1000 := by decide
    have o0 : (phdrAt testElf 0).p_offset = 116 := by decide
    refine ⟨?_, ?_, ?_, ?_⟩
    · have := h.1 0 (by decide) (by decide) (by decide) 0 (by decide)
      rw [e0, o0] at this
      simpa using this
    · have := h.1 0 (by decide) (by decide) (by decide) 3 (by decide)
      rw [e0, o0] at this
      simpa using this
    · refine h.2 999 fun i hi => ?_
      rw [hn2] at hi
      interval_cases i
      · decide
      · decide
    · refine h.2 1004 fun i hi => ?_
      rw [hn2] at hi
      interval_cases i
      · decide
      · decide
  · intro i j a hi hj hne hci
    rw [hn2] at hi hj
    interval_cases i <;> interval_cases j
    · exact absurd rfl hne
    · exact fun hcj => hty1 hcj.1
    · exact absurd hci.1 hty1
    · exact absurd rfl hne

/-- C3: validation order of `elfloader_main` — the ABI-flags check comes
first and fails with `UnsupportedAbi` on mismatch (regardless of the
header size); only when it passes is the program-header entry-size
compared with `sizeof(Elf32_Phdr)`, failing with `HeaderSizeMismatch`;
and every rejection leaves device memory exactly unchanged, so no
partial segment copy has happened at the point of rejection. -/
theorem c3_validation_before_copy (buf : List Nat) (mem : Nat → Nat) :
    (EF_ARM_EABI_VERSION (e_flags buf) ≠ EF_ARM_EABI_VER5 →
      elfloader_load buf mem = (Except.error FormatError.UnsupportedAbi, mem)) ∧
    (EF_ARM_EABI_VERSION (e_flags buf) = EF_ARM_EABI_VER5 →
      e_phentsize buf ≠ phdrSize →
      elfloader_load buf mem =
        (Except.error FormatError.HeaderSizeMismatch, mem)) ∧
    (∀ e mem', elfloader_load buf mem = (Except.error e, mem') →
      mem' = mem) := by
  refine ⟨fun h1 => ?_, fun h1 h2 => ?_, fun e mem' h => ?_⟩
  · unfold elfloader_load
    rw [if_pos h1]
  · unfold elfloader_load
    rw [if_neg (by simpa using h1), if_pos h2]
  · unfold elfloader_load at h
    split_ifs at h <;> simp_all

/-- Witness for C3: the empty buffer fails the ABI check with
`UnsupportedAbi` and untouched memory; a buffer passing the ABI check
but with `e_phentsize = 0` fails with `HeaderSizeMismatch` and untouched
memory. -/
theorem c3_validation_before_copy_witness :
    elfloader_load [] (fun _ => 0) =
      (Except.error FormatError.UnsupportedAbi, fun _ => 0) ∧
    elfloader_load
      [0, 0, 0, 0, 0, 0, 0, 0, 0, 0, 0, 0, 0, 0, 0, 0, 0, 0, 0, 0,
       0, 0, 0, 0, 0, 0, 0, 0, 0, 0, 0, 0, 0, 0, 0, 0, 0, 0, 0, 5]
      (fun _ => 0) =
      (Except.error FormatError.HeaderSizeMismatch, fun _ => 0) := by
  constructor
  · exact (c3_validation_before_copy [] (fun _ => 0)).1 (by decide)
  · exact (c3_validation_before_copy
      [0, 0, 0, 0, 0, 0, 0, 0, 0, 0, 0, 0, 0, 0, 0, 0, 0, 0, 0, 0,
       0, 0, 0, 0, 0, 0, 0, 0, 0, 0, 0, 0, 0, 0, 0, 0, 0, 0, 0, 5]
      (fun _ => 0)).2.1 (by decide) (by decide)

/-- C9: execution handoff — when both format checks pass, the trace of
`elfloader_main` is the segment copies followed by exactly the
parameterless branch `entry_point_fn()` to the returned entry point
`e_entry` and then `vTaskSuspend(NULL)`; the suspension is the last step
of the trace, so a returning image leaves the task parked (suspended,
not deleted) and nothing later in the trace — or anywhere in the
program, which contains no `vTaskResume` — resumes it. -/
theorem c9_handoff_then_park (buf : List Nat)
    (h1 : EF_ARM_EABI_VERSION (e_flags buf) = EF_ARM_EABI_VER5)
    (h2 : e_phentsize buf = phdrSize) :
    elfloader_main_actions buf =
      segCopyActions buf ++
        [MainAction.callEntry (e_entry buf), MainAction.suspendSelf] ∧
    (∀ a ∈ segCopyActions buf, ∃ d s n, a = MainAction.copy d s n) ∧
    (elfloader_main_actions buf).getLast? = some MainAction.suspendSelf := by
  have heq : elfloader_main_actions buf =
      segCopyActions buf ++
        [MainAction.callEntry (e_entry buf), MainAction.suspendSelf] := by
    unfold elfloader_main_actions
    rw [if_neg (by simpa using h1), if_neg (by simpa using h2)]
  refine ⟨heq, ?_, ?_⟩
  · intro a ha
    unfold segCopyActions at ha
    obtain ⟨i, -, hf⟩ := List.mem_filterMap.mp ha
    simp only at hf
    split_ifs at hf with ht hs
    exact ⟨_, _, _, (Option.some.injEq _ _ ▸ hf).symm⟩
  · rw [heq, show segCopyActions buf ++
        [MainAction.callEntry (e_entry buf), MainAction.suspendSelf] =
        (segCopyActions buf ++ [MainAction.callEntry (e_entry buf)]) ++
          [MainAction.suspendSelf] by simp,
      List.getLast?_concat]

/-- Witness for C9 on `testElf`: one copy action, then the branch to the
entry point 0x1234, then the final self-suspension. -/
theorem c9_handoff_then_park_witness :
    elfloader_main_actions testElf =
      [MainAction.copy 1000 116 4, MainAction.callEntry 4660,
       MainAction.suspendSelf] ∧
    (elfloader_main_actions testElf).getLast? = some MainAction.suspendSelf := by
  have h := c9_handoff_then_park testElf (by decide) (by decide)
  exact ⟨by rw [h.1]; decide, h.2.2⟩

/-! ## Lemmas about the interleaved system -/

theorem sysRun_append (alloc : Nat → Nat) (s : SysState) (t₁ t₂ : List Event) :
    sysRun alloc s (t₁ ++ t₂) = sysRun alloc (sysRun alloc s t₁) t₂ := by
  unfold sysRun
  exact List.foldl_append _ _ _ _

/-- Nothing ever rearms the timer: once `xTimerStop` has run (or the
one-shot timer has expired), it stays stopped. -/
theorem sysStep_timer_stays_stopped (alloc : Nat → Nat) (s : SysState)
    (e : Event) (h : s.timerActive = false) :
    (sysStep alloc s e).timerActive = false := by
  cases e with
  | timerFire => simp [sysStep, usb_timer_callback, h]
  | recv c => cases c <;> simp [sysStep, elfloader_recv, h]

theorem sysRun_timer_stays_stopped (alloc : Nat → Nat) (tr : List Event) :
    ∀ s : SysState, s.timerActive = false →
      (sysRun alloc s tr).timerActive = false := by
  induction tr with
  | nil => exact fun s h => h
  | cons e tr ih =>
      exact fun s h => ih _ (sysStep_timer_stays_stopped alloc s e h)

/-- A stopped timer never starts another load. -/
theorem sysRun_timerLoads_stopped (alloc : Nat → Nat) (tr : List Event) :
    ∀ s : SysState, s.timerActive = false →
      (sysRun alloc s tr).timerLoads = s.timerLoads := by
  induction tr with
  | nil => exact fun s _ => rfl
  | cons e tr ih =>
      intro s h
      have hstep : (sysStep alloc s e).timerLoads = s.timerLoads := by
        cases e with
        | timerFire => simp [sysStep, usb_timer_callback, h]
        | recv c => cases c <;> simp [sysStep, elfloader_recv]
      rw [sysRun, List.foldl_cons, ← sysRun, ih _ (sysStep_timer_stays_stopped alloc s e h), hstep]

/-- A trace without timer expiries adds no timer loads. -/
theorem sysRun_timerLoads_no_fire (alloc : Nat → Nat) (tr : List Event) :
    ∀ s : SysState, Event.timerFire ∉ tr →
      (sysRun alloc s tr).timerLoads = s.timerLoads := by
  induction tr with
  | nil => exact fun s _ => rfl
  | cons e tr ih =>
      intro s h
      have he : e ≠ Event.timerFire := fun hh => h (hh ▸ List.mem_cons_self e tr)
      have hstep : (sysStep alloc s e).timerLoads = s.timerLoads := by
        cases e with
        | timerFire => exact absurd rfl he
        | recv c => cases c <;> simp [sysStep, elfloader_recv]
      rw [sysRun, List.foldl_cons, ← sysRun,
        ih _ (fun hm => h (List.mem_cons_of_mem e hm)), hstep]

/-- Invariant: the one-shot timer has started `timerLoads = 0` loads while
it is still active and exactly one once it is not (for no-`SetSize` runs);
combined with `timerLoads ≤ 1` for arbitrary runs. -/
theorem sysRun_timerLoads_le_one (alloc : Nat → Nat) (tr : List Event) :
    ∀ s : SysState, (s.timerActive = true → s.timerLoads = 0) →
      s.timerLoads ≤ 1 →
      (sysRun alloc s tr).timerLoads ≤ 1 := by
  induction tr with
  | nil => exact fun s _ h => h
  | cons e tr ih =>
      intro s h0 h1
      rw [sysRun, List.foldl_cons, ← sysRun]
      cases e with
      | timerFire =>
          by_cases ha : s.timerActive
          · refine ih _ ?_ ?_ <;>
              simp [sysStep, usb_timer_callback, ha, h0 ha]
          · have ha' : s.timerActive = false := by simpa using ha
            refine ih _ ?_ ?_ <;> simp [sysStep, usb_timer_callback, ha', h0, h1]
      | recv c =>
          cases c <;> refine ih _ ?_ ?_ <;>
            simp [sysStep, elfloader_recv, h0, h1] <;>
            intro hh <;> simp [h0 hh]

/-- Counterexample to C5: the trace in which the one-shot timer expires
first, then `SetSize(10)` arrives (its `xTimerStop` is too late), then
`Done` — both the timer-expiry path and the host `Done` path call
`xTaskCreate(elfloader_main, …)`, so two load-and-run sequences start in
the same boot cycle, refuting "at most one". -/
theorem c5_race_counterexample :
    (sysRun (fun _ => 1000) (initState fun _ => 0)
        [Event.timerFire, Event.recv (Cmd.setSize 10),
         Event.recv Cmd.done]).timerLoads = 1 ∧
    (sysRun (fun _ => 1000) (initState fun _ => 0)
        [Event.timerFire, Event.recv (Cmd.setSize 10),
         Event.recv Cmd.done]).doneLoads.length = 1 := by
  exact ⟨rfl, rfl⟩

/-- C5 amended: the timer-expiry path by itself starts at most one load
per boot cycle (the timer is one-shot), and it starts none at all when a
`SetSize` is processed before any expiry; but nothing gates the `Done`
path against the timer path, so when the timer fires before the first
`SetSize` both paths start a load-and-run sequence (see the
counterexample) — the code does not guarantee at most one overall. -/
theorem c5_at_most_one_timer_load (alloc mem0 : Nat → Nat) :
    (∀ tr, (sysRun alloc (initState mem0) tr).timerLoads ≤ 1) ∧
    (∀ tr₁ size tr₂, Event.timerFire ∉ tr₁ →
      (sysRun alloc (initState mem0)
        (tr₁ ++ Event.recv (Cmd.setSize size) :: tr₂)).timerLoads = 0) := by
  constructor
  · intro tr
    exact sysRun_timerLoads_le_one alloc tr _ (fun _ => rfl) (by simp [initState])
  · intro tr₁ size tr₂ hnf
    rw [show Event.recv (Cmd.setSize size) :: tr₂ =
        [Event.recv (Cmd.setSize size)] ++ tr₂ by rfl,
      ← List.append_assoc, sysRun_append]
    set s₁ := sysRun alloc (initState mem0) (tr₁ ++ [Event.recv (Cmd.setSize size)]) with hs₁
    have hstop : s₁.timerActive = false := by
      rw [hs₁, sysRun_append]
      rfl
    have hcnt : s₁.timerLoads = 0 := by
      rw [hs₁, sysRun_append]
      have h₁ : (sysRun alloc (initState mem0) tr₁).timerLoads = 0 :=
        sysRun_timerLoads_no_fire alloc tr₁ _ hnf
      simpa [sysRun, sysStep, elfloader_recv] using h₁
    rw [sysRun_timerLoads_stopped alloc tr₂ s₁ hstop, hcnt]

/-- Witness for C5 amended: two consecutive expiries still start one
load, and `SetSize` before any expiry leaves the timer path at zero
loads even after a later expiry event. -/
theorem c5_at_most_one_timer_load_witness :
    (sysRun (fun _ => 1000) (initState fun _ => 0)
      [Event.timerFire, Event.timerFire]).timerLoads ≤ 1 ∧
    (sysRun (fun _ => 1000) (initState fun _ => 0)
      ([] ++ Event.recv (Cmd.setSize 10) :: [Event.timerFire])).timerLoads = 0 := by
  refine ⟨(c5_at_most_one_timer_load (fun _ => 1000) (fun _ => 0)).1 _,
    (c5_at_most_one_timer_load (fun _ => 1000) (fun _ => 0)).2 [] 10
      [Event.timerFire] (by simp)⟩

/-- C7: `SetSize(size)` calls `xTimerStop` on the fallback timer and
`malloc(size)`, storing the result as the new session buffer — a fresh
upload session with an allocation request of exactly `size` bytes; and
after any `SetSize`, no later event of the boot cycle ever finds the
timer active again (nothing rearms it), so the timer path starts no
further load. -/
theorem c7_setsize_cancels_timer (alloc : Nat → Nat) (s : SysState)
    (size : Nat) :
    (elfloader_recv alloc s (Cmd.setSize size)).timerActive = false ∧
    (elfloader_recv alloc s (Cmd.setSize size)).recvImage = alloc size ∧
    (elfloader_recv alloc s (Cmd.setSize size)).allocs = s.allocs ++ [size] ∧
    (∀ tr, (sysRun alloc (elfloader_recv alloc s (Cmd.setSize size)) tr).timerActive = false) ∧
    (∀ tr, (sysRun alloc (elfloader_recv alloc s (Cmd.setSize size)) tr).timerLoads =
      (elfloader_recv alloc s (Cmd.setSize size)).timerLoads) := by
  refine ⟨rfl, rfl, rfl, fun tr => ?_, fun tr => ?_⟩
  · exact sysRun_timer_stays_stopped alloc tr _ rfl
  · exact sysRun_timerLoads_stopped alloc tr _ rfl

/-- Without a `SetSize`, the static pointer `elfloader_recv_image` keeps
its value (only `SetSize` assigns it). -/
theorem sysRun_recvImage_no_setSize (alloc : Nat → Nat) (tr : List Event) :
    ∀ s : SysState, (∀ sz, Event.recv (Cmd.setSize sz) ∉ tr) →
      (sysRun alloc s tr).recvImage = s.recvImage := by
  induction tr with
  | nil => exact fun s _ => rfl
  | cons e tr ih =>
      intro s h
      have hstep : (sysStep alloc s e).recvImage = s.recvImage := by
        cases e with
        | timerFire => by_cases ha : s.timerActive <;> simp [sysStep, usb_timer_callback, ha]
        | recv c =>
            cases c with
            | setSize sz => exact absurd (List.mem_cons_self _ _) (h sz)
            | bytes o n p => rfl
            | done => rfl
      rw [sysRun, List.foldl_cons, ← sysRun,
        ih _ (fun sz hm => h sz (List.mem_cons_of_mem e hm)), hstep]

/-- The `Bytes` handler of `elfloader_recv` is one unconditional
`memcpy`: every payload byte `k < size` lands at
`elfloader_recv_image + offset + k`, addresses outside that window are
untouched, and no other field of the state changes. -/
theorem bytes_step_mem (alloc : Nat → Nat) (s : SysState)
    (offset size : Nat) (payload : List Nat) :
    (∀ k, k < size →
      (sysStep alloc s (Event.recv (Cmd.bytes offset size payload))).mem
        (s.recvImage + offset + k) = byteAt payload k) ∧
    (∀ a, a < s.recvImage + offset ∨ s.recvImage + offset + size ≤ a →
      (sysStep alloc s (Event.recv (Cmd.bytes offset size payload))).mem a =
        s.mem a) := by
  refine ⟨fun k hk => ?_, fun a ha => ?_⟩
  · show memcpyFromBuf payload (s.recvImage + offset) 0 size s.mem _ = _
    unfold memcpyFromBuf
    rw [if_pos (by omega)]
    congr 1
    omega
  · show memcpyFromBuf payload (s.recvImage + offset) 0 size s.mem a = s.mem a
    unfold memcpyFromBuf
    rw [if_neg (by omega)]

/-- Counterexample to C1: session declared size 10 (buffer allocated at
base 1000), then `Bytes(offset = 5, size = 10)` with `offset + size = 15
> 10`.  The command is not rejected — `elfloader_recv` has no error
path at all — and the payload byte for buffer index 12, outside
`[0, 10)`, lands in memory at address 1012. -/
theorem c1_bounds_counterexample :
    (sysRun (fun _ => 1000) (initState fun _ => 0)
        [Event.recv (Cmd.setSize 10),
         Event.recv (Cmd.bytes 5 10 [1, 2, 3, 4, 5, 6, 7, 8, 9, 10])]).mem
      1012 = 8 ∧
    (initState (fun _ => 0) : SysState).mem 1012 = 0 := by
  exact ⟨rfl, rfl⟩

/-- C1 amended: `elfloader_recv` performs no bounds validation — a
`Bytes(offset, size)` command is never rejected (no `ProtocolError`
exists in the code) and always copies all `size` payload bytes to
`elfloader_recv_image + offset`, regardless of the size declared by
`SetSize`; so when `offset + size` exceeds the declared size the copy
still happens and writes past the end of the session buffer, while
addresses outside `[base + offset, base + offset + size)` are untouched
by the command. -/
theorem c1_bytes_unchecked_copy (alloc : Nat → Nat) (s : SysState)
    (offset size : Nat) (payload : List Nat) :
    (∀ k, k < size →
      (sysStep alloc s (Event.recv (Cmd.bytes offset size payload))).mem
        (s.recvImage + offset + k) = byteAt payload k) ∧
    (∀ a, a < s.recvImage + offset ∨ s.recvImage + offset + size ≤ a →
      (sysStep alloc s (Event.recv (Cmd.bytes offset size payload))).mem a =
        s.mem a) ∧
    (sysStep alloc s (Event.recv (Cmd.bytes offset size payload))).recvImage =
      s.recvImage ∧
    (sysStep alloc s (Event.recv (Cmd.bytes offset size payload))).allocs =
      s.allocs ∧
    (sysStep alloc s (Event.recv (Cmd.bytes offset size payload))).doneLoads =
      s.doneLoads := by
  exact ⟨(bytes_step_mem alloc s offset size payload).1,
    (bytes_step_mem alloc s offset size payload).2, rfl, rfl, rfl⟩

/-- Witness for C1 amended: with base 1000, `Bytes(5, 10, …)` after
`SetSize(10)` writes payload byte 7 (value 8) to address 1012 and leaves
address 1015 untouched. -/
theorem c1_bytes_unchecked_copy_witness :
    (sysStep (fun _ => 1000)
        (sysRun (fun _ => 1000) (initState fun _ => 0)
          [Event.recv (Cmd.setSize 10)])
        (Event.recv (Cmd.bytes 5 10 [1, 2, 3, 4, 5, 6, 7, 8, 9, 10]))).mem
      (1000 + 5 + 7) = 8 ∧
    (sysStep (fun _ => 1000)
        (sysRun (fun _ => 1000) (initState fun _ => 0)
          [Event.recv (Cmd.setSize 10)])
        (Event.recv (Cmd.bytes 5 10 [1, 2, 3, 4, 5, 6, 7, 8, 9, 10]))).mem
      1015 = 0 := by
  have h := c1_bytes_unchecked_copy (fun _ => 1000)
    (sysRun (fun _ => 1000) (initState fun _ => 0)
      [Event.recv (Cmd.setSize 10)]) 5 10 [1, 2, 3, 4, 5, 6, 7, 8, 9, 10]
  have hbase : (sysRun (fun _ => 1000) (initState fun _ => 0)
      [Event.recv (Cmd.setSize 10)]).recvImage = 1000 := rfl
  constructor
  · have := h.1 7 (by decide)
    rw [hbase] at this
    simpa using this
  · have := h.2.1 1015 (by rw [hbase]; omega)
    rw [this]
    rfl

/-- Counterexample to C4: from the boot state, with no `SetSize` ever
received, a `Bytes(5, 3, …)` is executed rather than rejected — it
writes through the null `elfloader_recv_image` pointer, putting byte 7
at absolute address 5 — and a `Done` is executed rather than rejected,
creating the `elfloader_main` task with the null buffer pointer as its
parameter. -/
theorem c4_no_setsize_counterexample :
    (sysRun (fun _ => 1000) (initState fun _ => 0)
        [Event.recv (Cmd.bytes 5 3 [7, 8, 9])]).mem 5 = 7 ∧
    (initState (fun _ => 0) : SysState).mem 5 = 0 ∧
    (sysRun (fun _ => 1000) (initState fun _ => 0)
        [Event.recv Cmd.done]).doneLoads = [0] := by
  exact ⟨rfl, rfl, rfl⟩

/-- C4 amended: before any `SetSize`, `elfloader_recv_image` is still
the null pointer, and neither a `Bytes` nor a `Done` is rejected: a
`Bytes(offset, size)` dereferences the null buffer pointer, writing its
payload at absolute addresses `offset, …, offset + size - 1`, and a
`Done` hands the null pointer to a new `elfloader_main` task (which then
boots the default image, see C10). -/
theorem c4_no_setsize_not_rejected (alloc mem0 : Nat → Nat)
    (tr : List Event) (offset size : Nat) (payload : List Nat)
    (hns : ∀ sz, Event.recv (Cmd.setSize sz) ∉ tr) :
    (sysRun alloc (initState mem0) tr).recvImage = 0 ∧
    (∀ k, k < size →
      (sysStep alloc (sysRun alloc (initState mem0) tr)
          (Event.recv (Cmd.bytes offset size payload))).mem (offset + k) =
        byteAt payload k) ∧
    (sysStep alloc (sysRun alloc (initState mem0) tr)
        (Event.recv Cmd.done)).doneLoads =
      (sysRun alloc (initState mem0) tr).doneLoads ++ [0] := by
  have h0 : (sysRun alloc (initState mem0) tr).recvImage = 0 :=
    sysRun_recvImage_no_setSize alloc tr _ hns
  refine ⟨h0, fun k hk => ?_, ?_⟩
  · have h := (bytes_step_mem alloc
      (sysRun alloc (initState mem0) tr) offset size payload).1 k hk
    rwa [h0, Nat.zero_add] at h
  · show (sysRun alloc (initState mem0) tr).doneLoads ++
        [(sysRun alloc (initState mem0) tr).recvImage] = _
    rw [h0]

/-- Witness for C4 amended: concrete run with no `SetSize`; the `Bytes`
writes its first byte to absolute address 5 and the `Done` records a
null-parameter load. -/
theorem c4_no_setsize_not_rejected_witness :
    (sysStep (fun _ => 1000)
        (sysRun (fun _ => 1000) (initState fun _ => 0) [])
        (Event.recv (Cmd.bytes 5 3 [7, 8, 9]))).mem (5 + 0) = 7 ∧
    (sysStep (fun _ => 1000)
        (sysRun (fun _ => 1000) (initState fun _ => 0) [])
        (Event.recv Cmd.done)).doneLoads = [] ++ [0] := by
  have h := c4_no_setsize_not_rejected (fun _ => 1000) (fun _ => 0) [] 5 3
    [7, 8, 9] (by simp)
  exact ⟨by simpa using h.2.1 0 (by decide), h.2.2⟩

/-- Counterexample to C6: with a failing allocator (`malloc` returns
null), `SetSize(10)` stores the null result unchecked — no
`AllocationError` is reported anywhere, `elfloader_recv` has no error
path — and the next `Bytes(0, 4, …)` dereferences the null session
buffer, writing its payload at absolute addresses 0–3. -/
theorem c6_alloc_failure_counterexample :
    (sysRun (fun _ => 0) (initState fun _ => 0)
        [Event.recv (Cmd.setSize 10)]).recvImage = 0 ∧
    (sysRun (fun _ => 0) (initState fun _ => 0)
        [Event.recv (Cmd.setSize 10),
         Event.recv (Cmd.bytes 0 4 [1, 2, 3, 4])]).mem 0 = 1 := by
  exact ⟨rfl, rfl⟩

/-- C6 amended: `elfloader_recv` stores `malloc(size)` without checking
it: when allocation fails the session buffer is silently null (no error
is surfaced to the caller and the device does not abort at that point),
and a later `Bytes(offset, size)` dereferences the null pointer,
writing through it at absolute addresses `offset, …, offset + size - 1`. -/
theorem c6_alloc_failure_silent_null (alloc : Nat → Nat) (s : SysState)
    (size : Nat) (hfail : alloc size = 0) :
    (elfloader_recv alloc s (Cmd.setSize size)).recvImage = 0 ∧
    (∀ offset sz payload k, k < sz →
      (sysStep alloc (elfloader_recv alloc s (Cmd.setSize size))
          (Event.recv (Cmd.bytes offset sz payload))).mem (offset + k) =
        byteAt payload k) := by
  have h0 : (elfloader_recv alloc s (Cmd.setSize size)).recvImage = 0 := by
    show alloc size = 0
    exact hfail
  refine ⟨h0, fun offset sz payload k hk => ?_⟩
  have h := (bytes_step_mem alloc (elfloader_recv alloc s (Cmd.setSize size))
    offset sz payload).1 k hk
  rwa [h0, Nat.zero_add] at h

/-- Witness for C6 amended at a concrete failing allocation. -/
theorem c6_alloc_failure_silent_null_witness :
    (elfloader_recv (fun _ => 0) (initState fun _ => 0)
      (Cmd.setSize 10)).recvImage = 0 ∧
    (sysStep (fun _ => 0)
        (elfloader_recv (fun _ => 0) (initState fun _ => 0) (Cmd.setSize 10))
        (Event.recv (Cmd.bytes 0 4 [1, 2, 3, 4]))).mem (0 + 0) = 1 := by
  have h := c6_alloc_failure_silent_null (fun _ => 0)
    (initState fun _ => 0) 10 rfl
  exact ⟨h.1, by simpa using h.2 0 4 [1, 2, 3, 4] 0 (by decide)⟩

/-- In a run without `SetSize`, the one-shot timer keeps this shape: it
has started one load exactly if it is no longer active, and the USB task
is suspended exactly if the timer has expired. -/
theorem sysRun_noSetSize_timer_shape (alloc : Nat → Nat) (tr : List Event) :
    ∀ s : SysState, (∀ sz, Event.recv (Cmd.setSize sz) ∉ tr) →
      (s.timerLoads = if s.timerActive then 0 else 1) →
      (s.usbTaskSuspended = !s.timerActive) →
      ((sysRun alloc s tr).timerLoads =
        if (sysRun alloc s tr).timerActive then 0 else 1) ∧
      ((sysRun alloc s tr).usbTaskSuspended = !(sysRun alloc s tr).timerActive) := by
  induction tr with
  | nil => exact fun s _ h1 h2 => ⟨h1, h2⟩
  | cons e tr ih =>
      intro s hns h1 h2
      rw [sysRun, List.foldl_cons, ← sysRun]
      refine ih _ (fun sz hm => hns sz (List.mem_cons_of_mem e hm)) ?_ ?_
      · cases e with
        | timerFire =>
            by_cases ha : s.timerActive <;>
              simp_all [sysStep, usb_timer_callback]
        | recv c =>
            cases c with
            | setSize sz => exact absurd (List.mem_cons_self _ _) (hns sz)
            | bytes o n p => exact h1
            | done => exact h1
      · cases e with
        | timerFire =>
            by_cases ha : s.timerActive <;>
              simp_all [sysStep, usb_timer_callback]
        | recv c =>
            cases c with
            | setSize sz => exact absurd (List.mem_cons_self _ _) (hns sz)
            | bytes o n p => exact h2
            | done => exact h2

/-- C8: the fallback timer is created in `main` as a one-shot
(`pdFALSE`) timer with a 500 ms period and is armed at boot (the boot
state has it active); in any boot cycle in which no `SetSize` is ever
received, after its expiry the USB task is suspended and the timer path
has started exactly one load — whose parameter is the null pointer, so
`elfloader_main` reads the image from `"/default.elf"` via the
filesystem and then runs the very same validate-and-segment-copy pass
(`elfloader_main_actions`) as for a host upload. -/
theorem c8_fallback_timer (alloc mem0 : Nat → Nat)
    (fs : String → Option (List Nat)) (heap : Nat → List Nat)
    (tr : List Event)
    (hns : ∀ sz, Event.recv (Cmd.setSize sz) ∉ tr) :
    usbTimerPeriodMs = 500 ∧
    usbTimerAutoReload = false ∧
    (initState mem0).timerActive = true ∧
    (sysRun alloc (initState mem0) (tr ++ [Event.timerFire])).usbTaskSuspended
      = true ∧
    (sysRun alloc (initState mem0) (tr ++ [Event.timerFire])).timerLoads = 1 ∧
    elfloader_getImage 0 fs heap = fs defaultElfPath ∧
    defaultElfPath = "/default.elf" := by
  have hshape := sysRun_noSetSize_timer_shape alloc tr (initState mem0) hns
    rfl rfl
  set s₁ := sysRun alloc (initState mem0) tr with hs₁
  have hfin : sysRun alloc (initState mem0) (tr ++ [Event.timerFire]) =
      usb_timer_callback s₁ := by
    rw [sysRun_append, ← hs₁]
    rfl
  refine ⟨rfl, rfl, rfl, ?_, ?_, rfl, rfl⟩
  · rw [hfin]
    unfold usb_timer_callback
    by_cases ha : s₁.timerActive
    · simp [ha]
    · have := hshape.2
      simp_all
  · rw [hfin]
    unfold usb_timer_callback
    by_cases ha : s₁.timerActive
    · have := hshape.1
      simp_all
    · have := hshape.1
      simp_all

/-- Witness for C8: the empty no-`SetSize` trace followed by the timer
expiry. -/
theorem c8_fallback_timer_witness :
    (sysRun (fun _ => 1000) (initState fun _ => 0)
        ([] ++ [Event.timerFire])).usbTaskSuspended = true ∧
    (sysRun (fun _ => 1000) (initState fun _ => 0)
        ([] ++ [Event.timerFire])).timerLoads = 1 ∧
    elfloader_getImage 0 (fun _ => some testElf) (fun _ => []) =
      some testElf := by
  have h := c8_fallback_timer (fun _ => 1000) (fun _ => 0)
    (fun _ => some testElf) (fun _ => []) [] (by simp)
  exact ⟨h.2.2.2.1, h.2.2.2.2.1, h.2.2.2.2.2.1⟩

/-- C10: `elfloader_recv_image` is initialized to null and only
`SetSize` assigns it, so a `Done` with no prior `SetSize` passes the
null pointer to the new `elfloader_main` task; `elfloader_main` treats a
null `param` not as an error but as the fallback case, reading the image
from `"/default.elf"`, after which the same
validate-load-jump trace (`elfloader_main_actions`) runs on those bytes
— a premature `Done` boots the default image. -/
theorem c10_premature_done_boots_default (alloc mem0 : Nat → Nat)
    (fs : String → Option (List Nat)) (heap : Nat → List Nat)
    (tr : List Event)
    (hns : ∀ sz, Event.recv (Cmd.setSize sz) ∉ tr) :
    (sysRun alloc (initState mem0) tr).recvImage = 0 ∧
    (sysStep alloc (sysRun alloc (initState mem0) tr)
        (Event.recv Cmd.done)).doneLoads =
      (sysRun alloc (initState mem0) tr).doneLoads ++ [0] ∧
    elfloader_getImage 0 fs heap = fs defaultElfPath ∧
    defaultElfPath = "/default.elf" := by
  have h0 : (sysRun alloc (initState mem0) tr).recvImage = 0 :=
    sysRun_recvImage_no_setSize alloc tr _ hns
  refine ⟨h0, ?_, rfl, rfl⟩
  show (sysRun alloc (initState mem0) tr).doneLoads ++
      [(sysRun alloc (initState mem0) tr).recvImage] = _
  rw [h0]

/-- Witness for C10: a premature `Done` right after boot (preceded only
by a `Bytes`, no `SetSize`) records a null-parameter load, and the null
parameter resolves to the filesystem's `"/default.elf"` image. -/
theorem c10_premature_done_boots_default_witness :
    (sysStep (fun _ => 1000)
        (sysRun (fun _ => 1000) (initState fun _ => 0)
          [Event.recv (Cmd.bytes 0 1 [5])])
        (Event.recv Cmd.done)).doneLoads = [] ++ [0] ∧
    elfloader_getImage 0 (fun _ => some testElf) (fun _ => []) =
      some testElf := by
  have h := c10_premature_done_boots_default (fun _ => 1000) (fun _ => 0)
    (fun _ => some testElf) (fun _ => []) [Event.recv (Cmd.bytes 0 1 [5])]
    (by simp)
  exact ⟨h.2.1, h.2.2.1⟩

end ELFLoader
